import Mathlib

/-!
A shallow embedding of `ovm2/ovm_main.cc`: the OHeap cell model and loader,
the typed accessors, the Frame name resolution, the `func_print` native
function, and the `VM::RunFrame` interpreter loop.

Conventions of the embedding:
* byte buffers are `List Nat` with entries in `[0, 256)`;
* machine integers are `Int` with explicit two's-complement reduction;
* handles (`int32_t` in the source) are `Int`;
* operations whose C counterpart has undefined behavior (out-of-bounds
  indexing, failed `assert`, reads past a buffer) return `none`;
* diagnostic logging (`log`, `printf`, `DebugString`, `DebugHandleArray`)
  is omitted: it writes only to the log and never changes VM state, and the
  spec treats it as an external collaborator.
-/

namespace OVM2

/-- A byte read through C `signed char` (the element type of `const char*`
buffers in the source): values at or above 128 wrap to negatives. -/
def sByte (b : Nat) : Int :=
  if b % 256 < 128 then ((b % 256 : Nat) : Int) else ((b % 256 : Nat) : Int) - 256

/-- Little-endian accumulation of a byte list into an unsigned value. -/
def bytesToNatLE (bs : List Nat) : Nat :=
  bs.foldr (fun b acc => b % 256 + 256 * acc) 0

/-- Little-endian signed integer of `w` bytes, two's complement. -/
def sIntLE (w : Nat) (bs : List Nat) : Int :=
  let u := bytesToNatLE (bs.take w)
  if u < 2 ^ (8 * w - 1) then (u : Int) else (u : Int) - 2 ^ (8 * w)

/-- Read a signed 32-bit little-endian value at byte offset `off`;
`none` when the buffer does not hold four bytes there. -/
def readI32At (bs : List Nat) (off : Nat) : Option Int :=
  if off + 4 ≤ bs.length then some (sIntLE 4 ((bs.drop off).take 4)) else none

/-- Value tags, from the `TAG_*` constants in the source. -/
def TAG_NONE : Int := -1

def TAG_BOOL : Int := -2

def TAG_INT : Int := -3

def TAG_FLOAT : Int := -4

def TAG_STR : Int := -5

def TAG_TUPLE : Int := -6

def TAG_CODE : Int := -7

/-- The 16-byte `Cell` record.  The two C unions overlap in memory; here each
interpretation is a separate field, all decoded from the same wire bytes by
`parseCell`, and the `tag` / `is_slab` discriminants select which field is
meaningful (the source's own invariant: a cell is never read through the
wrong interpretation).
* `small_val` are the twelve inline payload bytes (wire bytes 4..15);
* `offset` is `slab_wire.offset` (wire bytes 12..15), the serialized slab
  offset of a slab-backed cell;
* `ptr` is the resolved reference of a slab-backed cell after patching,
  modelled as a byte index into the heap's slab buffer;
* `i` is the `int64_t` numeric view of wire bytes 8..15. -/
structure Cell where
  tag : Int
  is_slab : Bool
  small_len : Nat
  small_val : List Nat
  offset : Int
  ptr : Int
  i : Int
  deriving DecidableEq

/-- The string view: `len` is the authoritative length (an `int32_t`),
`data` the byte buffer the view points into (the view may be shorter than
`len` only in states whose C counterpart reads out of bounds). -/
structure Str where
  len : Int
  data : List Nat
  deriving DecidableEq

/-- The tuple view: length plus the handle array. -/
structure Tuple where
  len : Int
  handles : List Int
  deriving DecidableEq

/-- The loaded heap: the slab byte buffer and the cell table. -/
structure OHeap where
  slabs : List Nat
  cells : List Cell
  deriving DecidableEq

/-- `cells_[h]`: `none` models the undefined behavior of indexing with a
negative or out-of-range handle. -/
def OHeap.cellAt (heap : OHeap) (h : Int) : Option Cell :=
  if h < 0 then none else heap.cells[h.toNat]?

/-- The inline-versus-slab branch shared by the string accessors: a slab
string stores its `int32_t` length at the resolved reference and its bytes
after it; an inline string uses `small_len` and the inline bytes.  `none`
models a read through an unresolved or out-of-range slab reference. -/
def strOfCell (heap : OHeap) (cell : Cell) : Option Str :=
  if cell.is_slab then
    if cell.ptr < 0 then none
    else
      match readI32At heap.slabs cell.ptr.toNat with
      | none => none
      | some len => some ⟨len, heap.slabs.drop (cell.ptr.toNat + 4)⟩
  else some ⟨(cell.small_len : Int), cell.small_val⟩

/-- `OHeap::AsStr`: `some none` is the accessor returning `false` on a tag
mismatch, `some (some s)` is success, and the outer `none` is undefined
behavior (bad handle or bad slab read). -/
def OHeap.AsStr (heap : OHeap) (h : Int) : Option (Option Str) :=
  match heap.cellAt h with
  | none => none
  | some cell =>
    if cell.tag ≠ TAG_STR then some none
    else (strOfCell heap cell).map some

/-- `OHeap::AsStr0`: the NUL-terminated C-string view of a string cell, the
bytes stored before the first zero byte.  `none` is the `nullptr` return on
a tag mismatch (or undefined behavior on a bad handle / slab read). -/
def OHeap.AsStr0 (heap : OHeap) (h : Int) : Option (List Nat) :=
  match heap.cellAt h with
  | none => none
  | some cell =>
    if cell.tag ≠ TAG_STR then none
    else if cell.is_slab then
      if cell.ptr < 0 then none
      else some ((heap.slabs.drop (cell.ptr.toNat + 4)).takeWhile (fun b => b ≠ 0))
    else some (cell.small_val.takeWhile (fun b => b ≠ 0))

/-- `OHeap::AsInt`, translated as written in the source: the guard compares
the cell's tag against `TAG_STR` (not `TAG_INT`), and on success the
`int64_t` slot `cell.i` is produced.  `some none` is the `false` return,
the outer `none` a bad handle. -/
def OHeap.AsInt (heap : OHeap) (h : Int) : Option (Option Int) :=
  match heap.cellAt h with
  | none => none
  | some cell =>
    if cell.tag ≠ TAG_STR then some none
    else some (some cell.i)

/-- The control-flow signal, `enum class Why` in the source. -/
inductive Why where
  | Not
  | Exception
  | Reraise
  | Return
  | Break
  | Continue
  | Yield
  deriving DecidableEq

/-- `func_print`: the example native function.  Result components are the
control signal, the result-handle sequence (the source appends to the
caller-supplied `rets` vector), and the bytes written to standard output
(`fwrite` of the `len` data bytes, then `puts` emitting a newline byte and
its own trailing newline).  `none` models the undefined `args[0]` access on
an empty argument vector, a wild handle, or an `fwrite` of more bytes than
the view holds. -/
def func_print (heap : OHeap) (args : List Int) (rets : List Int) :
    Option (Why × List Int × List Nat) :=
  match args with
  | [] => none
  | a :: _ =>
    match heap.AsStr a with
    | none => none
    | some none => some (Why.Exception, rets, [])
    | some (some s) =>
      if s.len < 0 ∨ (s.data.length : Int) < s.len then none
      else some (Why.Not, rets ++ [0], s.data.take s.len.toNat ++ [10, 10])

/-- The byte sequence of the literal name the built-in table knows,
`"print"`. -/
def printBytes : List Nat := [112, 114, 105, 110, 116]

/-- Lookup in the frame's local-binding table.  The source's
`unordered_map<const char*, Handle, NameHash, NameEq>` compares keys with
`strcmp`, so the table is modelled as an association list keyed by C-string
byte sequences. -/
def lookupName (locals : List (List Nat × Int)) (name : List Nat) : Option Int :=
  (locals.find? (fun p => p.1 == name)).map (fun p => p.2)

/-- `Frame::LoadName`: resolve an identifier handle through `AsStr0` (the
C-string view), then try the local-binding table, then the built-in
comparison `strcmp(name, "print") == 0`, then the default handle `0`.
`none` models the `assert(name != nullptr)` failure on a non-string
handle. -/
def LoadName (heap : OHeap) (locals : List (List Nat × Int)) (h : Int) :
    Option Int :=
  match heap.AsStr0 h with
  | none => none
  | some name =>
    match lookupName locals name with
    | some v => some v
    | none => if name = printBytes then some (-1) else some 0

/-- Modelled from the spec: the numeric opcode constants and the
has-argument threshold come from `opcode.h`, which is not among the core
sources; the spec consumes them as a fixed enumeration mirroring the
CPython opcode numbering that the interpreter is written against. -/
def POP_TOP : Nat := 1

def RETURN_VALUE : Nat := 83

def HAVE_ARGUMENT : Nat := 90

def LOAD_CONST : Nat := 100

def LOAD_NAME : Nat := 101

def CALL_FUNCTION : Nat := 131

/-- Operand decoding as the source writes it:
`oparg = bytecode[i] + bytecode[i+1]*256`, where `bytecode` has type
`const char*`, so each operand byte is read through `signed char`. -/
def decodeOparg (b0 b1 : Nat) : Int := sByte b0 + sByte b1 * 256

/-- `oparg & 0xff`, the positional-argument count of `CALL_FUNCTION`,
computed on the 32-bit two's-complement representation of `oparg`. -/
def numArgsOf (oparg : Int) : Nat := (oparg % 4294967296).toNat % 256

/-- `(oparg >> 8) & 0xff`, the keyword-argument count of `CALL_FUNCTION`. -/
def numKwargsOf (oparg : Int) : Nat := ((oparg % 4294967296).toNat / 256) % 256

/-- A block-stack entry, `struct Block` in the source. -/
structure Block where
  type : Nat
  level : Int
  handler : Int
  deriving DecidableEq

/-- The mutable state of one `RunFrame` activation: the instruction cursor
`i`, the control signal `why`, the frame's value stack (head is the top),
block stack and local-binding table, the bytes written to standard output
by native calls, and the executed-instruction counter `n`. -/
structure VMState where
  i : Nat
  why : Why
  stack : List Int
  blocks : List Block
  locals : List (List Nat × Int)
  output : List Nat
  n : Nat
  deriving DecidableEq

/-- The constituents of the `Code` view that `RunFrame` caches before its
loop: the bytecode bytes (`co.code()`), and the handle arrays of the
constants and names tuples (`co.consts()`, `co.names()`). -/
structure CodeView where
  bytecode : List Nat
  consts : List Int
  names : List Int
  deriving DecidableEq

/-- The `switch (op)` body of `RunFrame`.  `oparg` is `none` when the opcode
lies below `HAVE_ARGUMENT` (the C variable is then uninitialized; every
case that reads it lies above the threshold, so reading `none` is modelled
as undefined).  Unknown opcodes fall through the switch and only advance
the instruction counter, as in the source.  `none` models out-of-bounds
tuple indexing, stack underflow (`pop_back` on an empty vector), a failed
`assert`, or a native call with undefined behavior. -/
def dispatchOp (heap : OHeap) (cv : CodeView) (op : Nat) (oparg : Option Int)
    (s : VMState) : Option VMState :=
  if op = LOAD_CONST then
    match oparg with
    | none => none
    | some g =>
      if g < 0 then none
      else
        match cv.consts[g.toNat]? with
        | none => none
        | some h => some { s with stack := h :: s.stack, n := s.n + 1 }
  else if op = LOAD_NAME then
    match oparg with
    | none => none
    | some g =>
      if g < 0 then none
      else
        match cv.names[g.toNat]? with
        | none => none
        | some nh =>
          match LoadName heap s.locals nh with
          | none => none
          | some h => some { s with stack := h :: s.stack, n := s.n + 1 }
  else if op = POP_TOP then
    match s.stack with
    | [] => none
    | _ :: rest => some { s with stack := rest, n := s.n + 1 }
  else if op = CALL_FUNCTION then
    match oparg with
    | none => none
    | some g =>
      if s.stack.length < numArgsOf g then none
      else
        match s.stack.drop (numArgsOf g) with
        | [] => none
        | func_handle :: rest =>
          if func_handle < 0 then
            match func_print heap (s.stack.take (numArgsOf g)) [] with
            | none => none
            | some (why2, rets, out) =>
              if why2 ≠ Why.Not then
                some { s with stack := rest, why := why2, n := s.n + 1 }
              else
                match rets with
                | [r] =>
                  some { s with stack := r :: rest, why := why2, output := s.output ++ out, n := s.n + 1 }
                | _ => none
          else
            some { s with stack := 0 :: rest, n := s.n + 1 }
  else if op = RETURN_VALUE then
    some { s with why := Why.Return, n := s.n + 1 }
  else
    some { s with n := s.n + 1 }

/-- One iteration of the `while (i < num_bytes)` loop body: fetch the opcode
byte (converted to `uint8_t`), fetch the two little-endian operand bytes
and advance the cursor by three when the opcode is at or above
`HAVE_ARGUMENT`, otherwise advance by one; then dispatch. -/
def execStep (heap : OHeap) (cv : CodeView) (s : VMState) : Option VMState :=
  match cv.bytecode[s.i]? with
  | none => none
  | some b =>
    let op := b % 256
    if HAVE_ARGUMENT ≤ op then
      match cv.bytecode[s.i + 1]?, cv.bytecode[s.i + 2]? with
      | some c0, some c1 =>
        dispatchOp heap cv op (some (decodeOparg c0 c1)) { s with i := s.i + 3 }
      | _, _ => none
    else
      dispatchOp heap cv op none { s with i := s.i + 1 }

/-- The `while (i < num_bytes)` loop, with explicit fuel.  The loop
condition tests only the cursor, never the control signal `why`; it exits
exactly when the cursor passes the end of the bytecode, and the final state
(whose `why` is the value `RunFrame` returns) is produced then.  Each step
advances the cursor by at least one, so the fuel `RunFrame` supplies is
never exhausted. -/
def runLoop (heap : OHeap) (cv : CodeView) : Nat → VMState → Option VMState
  | 0, s => if s.i < cv.bytecode.length then none else some s
  | fuel + 1, s =>
    if s.i < cv.bytecode.length then
      match execStep heap cv s with
      | none => none
      | some s2 => runLoop heap cv fuel s2
    else some s

/-- The state a fresh frame starts in: cursor zero, signal `Why::Not`,
empty value stack, block stack and local-binding table. -/
def initState : VMState :=
  { i := 0, why := Why.Not, stack := [], blocks := [], locals := [],
    output := [], n := 0 }

/-- `VM::RunFrame` on a fresh frame for the given code view. -/
def RunFrame (heap : OHeap) (cv : CodeView) : Option VMState :=
  runLoop heap cv (cv.bytecode.length + 1) initState

/-- Read `n` bytes at offset `off` of the input stream; `none` is a short
read (`fread` returning fewer items than requested). -/
def readN (bs : List Nat) (off n : Nat) : Option (List Nat) :=
  if off + n ≤ bs.length then some ((bs.drop off).take n) else none

/-- Decode one 16-byte wire `Cell` record: `tag` is a signed 16-bit value in
bytes 0..1, `is_slab` byte 2, `small_len` byte 3; the twelve inline payload
bytes are bytes 4..15; the serialized slab offset sits in bytes 12..15
(after the four pad bytes of `slab_wire`), and the `int64_t` view covers
bytes 8..15.  `ptr` is not part of the wire format; it is filled by the
patching pass. -/
def parseCell (r : List Nat) : Cell :=
  { tag := sIntLE 2 r
  , is_slab := r.getD 2 0 % 256 != 0
  , small_len := r.getD 3 0 % 256
  , small_val := (r.drop 4).take 12
  , offset := sIntLE 4 (r.drop 12)
  , ptr := 0
  , i := sIntLE 8 (r.drop 8) }

/-- Decode `k` consecutive 16-byte cell records. -/
def parseCells : Nat → List Nat → List Cell
  | 0, _ => []
  | k + 1, bs => parseCell (bs.take 16) :: parseCells k (bs.drop 16)

/-- The patching pass on one cell: for a slab-backed cell the serialized
offset becomes the resolved reference (`cells[i].ptr = slabs + slab_offset`
in the source, an index into the slab buffer here).  The source checks
nothing about the offset's range. -/
def patchCell (c : Cell) : Cell :=
  if c.is_slab then { c with ptr := c.offset } else c

/-- The `"OHP2"` magic bytes. -/
def magicBytes : List Nat := [79, 72, 80, 50]

/-- `Load`: verify the magic header, read the 32-bit total slab size and
cell count, read the slab region and the cell records (any short read
fails), then run the patching pass over every cell.  Negative sizes are
modelled as `none` (the source passes them to `malloc`/`fread` with
undefined results).  The post-patch loop that prints every slab length is
diagnostic logging and is omitted. -/
def Load (input : List Nat) : Option OHeap :=
  match readN input 0 4 with
  | none => none
  | some magic =>
    if magic ≠ magicBytes then none
    else
      match readN input 4 4, readN input 8 4 with
      | some szBytes, some ncBytes =>
        let total_slab_size := sIntLE 4 szBytes
        let num_cells := sIntLE 4 ncBytes
        if total_slab_size < 0 ∨ num_cells < 0 then none
        else
          match readN input 12 total_slab_size.toNat with
          | none => none
          | some slabs =>
            match readN input (12 + total_slab_size.toNat) (16 * num_cells.toNat) with
            | none => none
            | some cellBytes =>
              some { slabs := slabs
                   , cells := (parseCells num_cells.toNat cellBytes).map patchCell }
      | _, _ => none

/-- `Code::AsInt`'s slab indexing: the code object's resolved reference is
read as an `int32_t` array and entry `idx` is the handle of the field
(entry 0 is the slab's own length word, which is why the field accessors
start at index 1). -/
def codeFieldHandle (heap : OHeap) (c : Cell) (idx : Nat) : Option Int :=
  if c.ptr < 0 then none
  else readI32At heap.slabs (c.ptr.toNat + 4 * idx)

/-- `Code::AsStr`: fetch the field handle, require the Str tag (an
`assert` in the source), and build the string view. -/
def codeAsStr (heap : OHeap) (c : Cell) (idx : Nat) : Option Str :=
  match codeFieldHandle heap c idx with
  | none => none
  | some h =>
    match heap.cellAt h with
    | none => none
    | some cell => if cell.tag ≠ TAG_STR then none else strOfCell heap cell

/-- Group `k` handles out of a byte buffer, four little-endian bytes each. -/
def handlesOfBytes : Nat → List Nat → List Int
  | 0, _ => []
  | k + 1, bs => sIntLE 4 (bs.take 4) :: handlesOfBytes k (bs.drop 4)

/-- `Code::AsTuple`: fetch the field handle, require the Tuple tag, and
build the (length, handle array) view from the slab or the inline bytes;
`none` also models reads past the cell's storage. -/
def codeAsTuple (heap : OHeap) (c : Cell) (idx : Nat) : Option Tuple :=
  match codeFieldHandle heap c idx with
  | none => none
  | some h =>
    match heap.cellAt h with
    | none => none
    | some cell =>
      if cell.tag ≠ TAG_TUPLE then none
      else if cell.is_slab then
        if cell.ptr < 0 then none
        else
          match readI32At heap.slabs cell.ptr.toNat with
          | none => none
          | some len =>
            if len < 0 ∨ (heap.slabs.length : Int) < cell.ptr + 4 + 4 * len then none
            else some ⟨len, handlesOfBytes len.toNat (heap.slabs.drop (cell.ptr.toNat + 4))⟩
      else
        if 12 < 4 * cell.small_len then none
        else some ⟨(cell.small_len : Int), handlesOfBytes cell.small_len cell.small_val⟩

/-- The code-view extraction `RunFrame` performs before its loop:
`co.code()` (field 8) supplies the bytecode bytes, `co.names()` (field 9)
and `co.consts()` (field 11) supply the handle arrays.  The handle must
carry the Code tag (`OHeap::AsCode` asserts it). -/
def codeViewOf (heap : OHeap) (h : Int) : Option CodeView :=
  match heap.cellAt h with
  | none => none
  | some c =>
    if c.tag ≠ TAG_CODE then none
    else
      match codeAsStr heap c 8, codeAsTuple heap c 9, codeAsTuple heap c 11 with
      | some bc, some nms, some cst =>
        if bc.len < 0 ∨ (bc.data.length : Int) < bc.len then none
        else
          some { bytecode := bc.data.take bc.len.toNat
               , consts := cst.handles
               , names := nms.handles }
      | _, _, _ => none

/-- `VM::RunMain`: treat the last cell of the heap as the code object to
run and execute a fresh frame over it. -/
def RunMain (heap : OHeap) : Option VMState :=
  match codeViewOf heap ((heap.cells.length : Int) - 1) with
  | none => none
  | some cv => RunFrame heap cv

/-!
Concrete fixtures.  Cells built by hand keep the overlapping union views
consistent with the wire layout: the numeric slot `i` and the offset slot
are recomputed from the inline payload bytes they share storage with.
-/

/-- An inline (non-slab) Str cell holding the byte sequence `s`, laid out
as the wire format stores it: `s` padded with zero bytes to the twelve
inline bytes, with the overlapping numeric and offset slots decoded from
those same bytes. -/
def inlineStrCell (s : List Nat) : Cell :=
  { tag := TAG_STR
  , is_slab := false
  , small_len := s.length
  , small_val := (s ++ List.replicate 12 0).take 12
  , offset := sIntLE 4 (((s ++ List.replicate 12 0).take 12).drop 8)
  , ptr := 0
  , i := sIntLE 8 (((s ++ List.replicate 12 0).take 12).drop 4) }

/-- An inline Int cell holding 42: the `int64_t` slot covers wire bytes
8..15, which are inline bytes 4..11. -/
def cellInt42 : Cell :=
  { tag := TAG_INT
  , is_slab := false
  , small_len := 0
  , small_val := [0, 0, 0, 0, 42, 0, 0, 0, 0, 0, 0, 0]
  , offset := 0
  , ptr := 0
  , i := 42 }

/-- A Code-tagged cell with empty payload; the interpreter's compiled-callee
branch never consults the callee cell, so no field slab is needed. -/
def codeCellStub : Cell :=
  { tag := TAG_CODE
  , is_slab := false
  , small_len := 0
  , small_val := [0, 0, 0, 0, 0, 0, 0, 0, 0, 0, 0, 0]
  , offset := 0
  , ptr := 0
  , i := 0 }

/-- A heap with an Int cell (handle 0) and the Str cell `"hi"` (handle 1). -/
def heapC4 : OHeap :=
  { slabs := [], cells := [cellInt42, inlineStrCell [104, 105]] }

/-- A heap whose only cell is the three-byte string `"a" NUL "b"` — a Str
value with an embedded zero byte. -/
def heapNulStr : OHeap :=
  { slabs := [], cells := [inlineStrCell [97, 0, 98]] }

/-- A heap whose only cell is the six-byte string `"print" NUL`: its
length-authoritative bytes differ from `"print"`, while its C-string view
equals `"print"`. -/
def heapP6 : OHeap :=
  { slabs := [], cells := [inlineStrCell [112, 114, 105, 110, 116, 0]] }

/-- A heap whose only cell is the five-byte string `"print"`. -/
def heapP5 : OHeap :=
  { slabs := [], cells := [inlineStrCell printBytes] }

/-- A heap whose only cell is the one-byte string `"x"`. -/
def heapX : OHeap :=
  { slabs := [], cells := [inlineStrCell [120]] }

/-- A heap with no cells at all, for runs that never touch the heap. -/
def heapEmpty : OHeap := { slabs := [], cells := [] }

/-- A heap with the Str cells `"print"` (handle 0) and `"hi"` (handle 1). -/
def heapC3 : OHeap :=
  { slabs := [], cells := [inlineStrCell printBytes, inlineStrCell [104, 105]] }

/-- A heap whose only cell is a Code-tagged cell (handle 0). -/
def heapC8 : OHeap := { slabs := [], cells := [codeCellStub] }

/-- Bytecode `RETURN_VALUE; LOAD_CONST 0` with constants `[7]`: an
instruction placed after the return. -/
def cvC1 : CodeView :=
  { bytecode := [83, 100, 0, 0], consts := [7], names := [] }

/-- Bytecode `LOAD_NAME 0; LOAD_CONST 0; CALL_FUNCTION (1 positional,
1 keyword); RETURN_VALUE` with names `["print"]` and constants `["hi"]`:
a native call carrying a nonzero keyword-argument count. -/
def cvC3 : CodeView :=
  { bytecode := [101, 0, 0, 100, 0, 0, 131, 1, 1, 83], consts := [1], names := [0] }

/-- Caller bytecode `LOAD_CONST 0; CALL_FUNCTION 0; RETURN_VALUE` whose
constant is the handle of the Code cell: a call to a compiled callee. -/
def cvCaller : CodeView :=
  { bytecode := [100, 0, 0, 131, 0, 0, 83], consts := [0], names := [] }

/-- The callee's own bytecode `LOAD_CONST 0; RETURN_VALUE` with constants
`[9]`: run as a frame, it returns with 9 on top of its value stack. -/
def cvCallee : CodeView :=
  { bytecode := [100, 0, 0, 83], consts := [9], names := [] }

/-- Bytecode `LOAD_NAME 0` with names `[0]`. -/
def cvC10 : CodeView :=
  { bytecode := [101, 0, 0], consts := [], names := [0] }

/-- A 32-byte heap image: magic `"OHP2"`, total slab size 4, one cell; the
slab region is 4 bytes, and the single cell record is Str-tagged,
slab-backed, with serialized offset 9999 — far outside `[0, 4)`. -/
def imgC2 : List Nat :=
  [79, 72, 80, 50, 4, 0, 0, 0, 1, 0, 0, 0, 1, 2, 3, 4,
   251, 255, 1, 0, 0, 0, 0, 0, 0, 0, 0, 0, 15, 39, 0, 0]

/-!
Claim theorems.
-/

/-- Claim C1: the claim asserts that once the control signal leaves
`Why::Not` no later instruction is fetched or executed.  Evaluating the
interpreter on the frame `RETURN_VALUE; LOAD_CONST 0` refutes this: the
loop condition tests only the cursor, so after `RETURN_VALUE` sets the
signal to `Return` (first instruction), the `LOAD_CONST` that follows is
still fetched and executed — the run ends with constant 7 pushed and two
instructions counted, where the claim requires an empty stack and one
instruction. -/
theorem c1_loop_continues_after_return :
    (RunFrame heapEmpty cvC1).map (fun st => (st.why, st.stack, st.n)) =
      some (Why.Return, [7], 2) ∧ ¬ (([7] : List Int) = [] ∧ (2 : Nat) = 1) := by
  decide

/-- Claim C2: the claim asserts that `Load` validates every slab-backed
cell's offset against `[0, total_slab_size)` and fails with `CorruptHeap`
on an out-of-range offset.  Evaluating `Load` on a well-formed 32-byte
image whose single slab-backed cell carries offset 9999 with a 4-byte slab
region refutes this: the patching pass stores the out-of-range reference
unchecked and `Load` succeeds. -/
theorem c2_load_accepts_out_of_range_offset :
    (Load imgC2).map (fun hp => (hp.slabs.length, hp.cells.map Cell.ptr)) =
      some (4, [9999]) ∧ ¬ ((9999 : Int) < 4) := by
  decide

/-- Claim C3: the claim asserts that a `CALL_FUNCTION` whose operand
carries a nonzero keyword-argument count is rejected with an ArityMismatch.
Evaluating the interpreter on `LOAD_NAME "print"; LOAD_CONST "hi";
CALL_FUNCTION (1 positional, 1 keyword); RETURN_VALUE` refutes this: the
operand bytes (1, 1) decode to keyword count 1, yet the call executes
normally — `"hi"` plus newlines is written, the result handle is pushed and
the frame returns. -/
theorem c3_kwargs_silently_ignored :
    numKwargsOf (decodeOparg 1 1) = 1 ∧
    (RunFrame heapC3 cvC3).map (fun st => (st.why, st.stack, st.output)) =
      some (Why.Return, [0], [104, 105, 10, 10]) := by
  decide

/-- Claim C4: the claim asserts `OHeap::AsInt` succeeds exactly on
Int-tagged cells.  Evaluating the accessor refutes this: its guard compares
the tag against `TAG_STR`, so it fails on the Int-tagged cell 42 (handle 0)
and succeeds on the Str-tagged cell `"hi"` (handle 1), returning that
cell's numeric slot.  (`AsStr` behaves as claimed: it fails on the Int
cell.) -/
theorem c4_asint_tag_check_inverted :
    (heapC4.cells[0]?).map Cell.tag = some TAG_INT ∧
    OHeap.AsInt heapC4 0 = some none ∧
    (heapC4.cells[1]?).map Cell.tag = some TAG_STR ∧
    OHeap.AsInt heapC4 1 = some (some 0) ∧
    OHeap.AsStr heapC4 0 = some none := by
  decide

/-- Claim C9: the claim asserts the operand is the unsigned little-endian
value of the two bytes, in `[0, 65535]`.  Evaluating the decoder refutes
this for bytes at or above 128: the source reads the operand bytes through
`const char*` (signed), so bytes (128, 0) decode to -128 rather than 128.
The cursor-advancement half of the claim holds: one byte for an opcode
below `HAVE_ARGUMENT`, three bytes at or above it. -/
theorem c9_signed_char_operand :
    decodeOparg 128 0 = -128 ∧ ¬ (decodeOparg 128 0 = 128) ∧
    decodeOparg 1 1 = 257 ∧
    (execStep heapEmpty { bytecode := [83], consts := [], names := [] }
        initState).map VMState.i = some 1 ∧
    (execStep heapEmpty { bytecode := [100, 5, 0], consts := [0, 0, 0, 0, 0, 0], names := [] }
        initState).map VMState.i = some 3 := by
  decide

/-- Claim C7, counterexample: the Str cell holding the six bytes
`"print" NUL` has length-authoritative bytes different from `"print"` and
no local binding, so the claim requires `LoadName` to return the unbound
sentinel 0; the source compares with `strcmp`, which stops at the embedded
NUL, and returns the native sentinel -1 instead. -/
theorem c7_counterexample :
    LoadName heapP6 [] 0 = some (-1) ∧
    (heapP6.AsStr 0).map (Option.map (fun s => s.data.take s.len.toNat)) =
      some (some [112, 114, 105, 110, 116, 0]) ∧
    ¬ ([112, 114, 105, 110, 116, 0] = printBytes) ∧
    ¬ ((-1 : Int) = 0) := by
  decide

/-- Claim C8, counterexample: for the caller `LOAD_CONST (code handle);
CALL_FUNCTION 0; RETURN_VALUE`, the claim requires the value pushed on the
caller's stack to be the return value produced by running the callee —
whose code `LOAD_CONST 9; RETURN_VALUE` terminates with 9 on top of its
value stack.  The interpreter instead never runs the callee: its
compiled-callee branch pushes the placeholder handle 0. -/
theorem c8_counterexample :
    (RunFrame heapC8 cvCaller).map VMState.stack = some [0] ∧
    (RunFrame heapC8 cvCallee).map (fun st => (st.stack, st.why)) =
      some ([9], Why.Return) ∧
    ¬ (([0] : List Int) = [9]) := by
  decide

/-- Claim C10, counterexample: executing `LOAD_NAME` on the six-byte name
`"print" NUL` — whose bytes differ from `"print"` — pushes -1, not the
handle 0 the claim requires for every name other than `"print"`; the local
table is (necessarily) empty, so the value comes from the C-string
comparison against the built-in table. -/
theorem c10_counterexample :
    (RunFrame heapP6 cvC10).map (fun st => (st.stack, st.locals)) =
      some ([-1], []) ∧
    (heapP6.AsStr 0).map (Option.map (fun s => s.data.take s.len.toNat)) =
      some (some [112, 114, 105, 110, 116, 0]) ∧
    ¬ ([112, 114, 105, 110, 116, 0] = printBytes) ∧
    ¬ ((-1 : Int) = 0) := by
  decide

/-- Claim C5: when the first argument's cell is not Str-tagged,
`func_print` signals `Exception`, leaves the result sequence exactly as it
received it (appending nothing), and writes no output. -/
theorem c5_print_type_mismatch (heap : OHeap) (a : Int) (rest rets : List Int)
    (cell : Cell) (hc : heap.cellAt a = some cell) (ht : cell.tag ≠ TAG_STR) :
    func_print heap (a :: rest) rets = some (Why.Exception, rets, []) := by
  simp [func_print, OHeap.AsStr, hc, ht]

/-- Claim C5, witness: an Int-tagged cell as the argument of the native
print function. -/
theorem c5_print_type_mismatch_witness :
    cellInt42.tag ≠ TAG_STR ∧
    func_print heapC4 [0] [] = some (Why.Exception, [], []) :=
  ⟨by decide, c5_print_type_mismatch heapC4 0 [] [] cellInt42 (by decide) (by decide)⟩

/-- Claim C6: on a string view of length `len` whose buffer really holds
`len` bytes (inline or slab-backed — `AsStr` already bridged the two),
`func_print` writes exactly the first `len` data bytes — embedded zero
bytes included, the stored length governs — followed by the two newline
bytes of `puts`, signals `Why::Not`, and appends exactly one result
handle. -/
theorem c6_print_writes_len_bytes (heap : OHeap) (a : Int) (rest rets : List Int)
    (s : Str) (hs : heap.AsStr a = some (some s)) (h0 : 0 ≤ s.len)
    (hlen : s.len.toNat ≤ s.data.length) :
    func_print heap (a :: rest) rets =
      some (Why.Not, rets ++ [0], s.data.take s.len.toNat ++ [10, 10]) ∧
    (s.data.take s.len.toNat).length = s.len.toNat := by
  constructor
  · simp only [func_print, hs]
    rw [if_neg (by omega)]
  · rw [List.length_take]
    omega

/-- Claim C6, witness: the three-byte string `"a" NUL "b"` — all three
bytes, the embedded NUL included, are written. -/
theorem c6_print_writes_len_bytes_witness :
    func_print heapNulStr [0] [] =
      some (Why.Not, [0], [97, 0, 98, 10, 10]) := by
  have h := c6_print_writes_len_bytes heapNulStr 0 [] []
      ⟨3, [97, 0, 98, 0, 0, 0, 0, 0, 0, 0, 0, 0]⟩ (by decide) (by decide) (by decide)
  rw [h.1]
  decide

/-- Claim C7, amended: `Frame::LoadName` resolves the name through its
NUL-terminated C-string view (the stored bytes up to the first zero byte,
which is what `AsStr0` yields and what `strcmp` compares), in priority
order: a local binding for that C string shadows everything and is
returned; otherwise a C-string view equal to `"print"` yields the native
sentinel -1; otherwise the sentinel handle 0. -/
theorem c7_amended (heap : OHeap) (locals : List (List Nat × Int)) (h : Int)
    (name : List Nat) (hn : heap.AsStr0 h = some name) :
    (∀ v, lookupName locals name = some v → LoadName heap locals h = some v) ∧
    (lookupName locals name = none → name = printBytes →
      LoadName heap locals h = some (-1)) ∧
    (lookupName locals name = none → name ≠ printBytes →
      LoadName heap locals h = some 0) := by
  refine ⟨?_, ?_, ?_⟩
  · intro v hv
    simp [LoadName, hn, hv]
  · intro hl hp
    subst hp
    simp [LoadName, hn, hl]
  · intro hl hp
    simp [LoadName, hn, hl, hp]

/-- Claim C7, witness: a local binding of `"print"` to handle 42 shadows
the built-in table, and without it the built-in sentinel -1 is produced. -/
theorem c7_amended_witness :
    LoadName heapP5 [(printBytes, 42)] 0 = some 42 ∧
    LoadName heapP5 [] 0 = some (-1) := by
  constructor
  · exact (c7_amended heapP5 [(printBytes, 42)] 0 printBytes (by decide)).1 42 (by decide)
  · exact (c7_amended heapP5 [] 0 printBytes (by decide)).2.1 (by decide) rfl

/-- Claim C8, amended: a `CALL_FUNCTION` whose callee handle is
non-negative does not create or run a frame for the callee; it pops the
positional arguments and the callee handle and pushes the placeholder
handle 0 onto the caller's value stack, leaving the control signal
untouched (the compiled-callee path is an unimplemented stub). -/
theorem c8_amended (heap : OHeap) (cv : CodeView) (g : Int) (s : VMState)
    (args : List Int) (fh : Int) (rest : List Int)
    (hstack : s.stack = args ++ fh :: rest)
    (hargs : args.length = numArgsOf g) (hfh : 0 ≤ fh) :
    dispatchOp heap cv CALL_FUNCTION (some g) s =
      some { s with stack := 0 :: rest, n := s.n + 1 } := by
  have hlen : ¬ (s.stack.length < numArgsOf g) := by
    rw [hstack, List.length_append, List.length_cons]
    omega
  have hdrop : s.stack.drop (numArgsOf g) = fh :: rest := by
    rw [hstack, ← hargs, List.drop_left]
  simp only [dispatchOp, CALL_FUNCTION, LOAD_CONST, LOAD_NAME, POP_TOP]
  rw [if_neg hlen, hdrop]
  norm_num
  intro hlt
  exact absurd hlt (by omega)

/-- Claim C8, witness: the caller state just before the `CALL_FUNCTION` of
`cvCaller` — the Code handle 0 on the stack, zero arguments — steps to the
state with the placeholder 0 pushed. -/
theorem c8_amended_witness :
    dispatchOp heapC8 cvCaller CALL_FUNCTION (some 0)
      { i := 6, why := Why.Not, stack := [0], blocks := [], locals := [],
        output := [], n := 1 } =
      some { i := 6, why := Why.Not, stack := [0], blocks := [], locals := [],
             output := [], n := 2 } := by
  have h := c8_amended heapC8 cvCaller 0
      { i := 6, why := Why.Not, stack := [0], blocks := [], locals := [],
        output := [], n := 1 }
      [] 0 [] rfl (by decide) (by decide)
  simpa using h

/-- Every branch of the opcode switch leaves the local-binding table as it
found it: no implemented opcode inserts into it. -/
theorem dispatchOp_preserves_locals (heap : OHeap) (cv : CodeView) (op : Nat)
    (oparg : Option Int) (s s2 : VMState)
    (h : dispatchOp heap cv op oparg s = some s2) : s2.locals = s.locals := by
  unfold dispatchOp at h
  repeat' split at h
  all_goals first
    | exact Option.noConfusion h
    | (injection h with h2; subst h2; rfl)

/-- One fetch/decode/dispatch step leaves the local-binding table as it
found it. -/
theorem execStep_preserves_locals (heap : OHeap) (cv : CodeView) (s s2 : VMState)
    (h : execStep heap cv s = some s2) : s2.locals = s.locals := by
  simp only [execStep] at h
  repeat' split at h
  all_goals first
    | exact Option.noConfusion h
    | exact (dispatchOp_preserves_locals _ _ _ _ _ _ h).trans rfl

/-- A whole interpreter run leaves the local-binding table as it found
it. -/
theorem runLoop_preserves_locals (heap : OHeap) (cv : CodeView) (fuel : Nat)
    (s s2 : VMState) (h : runLoop heap cv fuel s = some s2) :
    s2.locals = s.locals := by
  induction fuel generalizing s with
  | zero =>
    simp only [runLoop] at h
    split at h
    · exact Option.noConfusion h
    · injection h with h2
      subst h2
      rfl
  | succ fuel ih =>
    simp only [runLoop] at h
    split at h
    · cases h2 : execStep heap cv s with
      | none => rw [h2] at h; exact Option.noConfusion h
      | some s3 =>
        rw [h2] at h
        exact (ih s3 h).trans (execStep_preserves_locals heap cv s s3 h2)
    · injection h with h2
      subst h2
      rfl

/-- Claim C10, amended: no implemented operation writes the frame's
local-binding table — every step and every run preserves it, so a frame
created empty stays empty and the local-lookup path of `LoadName` never
succeeds; and with an empty table, a `LOAD_NAME` whose name's C-string view
differs from `"print"` pushes the sentinel handle 0 (a name whose C-string
view equals `"print"` pushes -1 even when its length-authoritative bytes
differ from `"print"`). -/
theorem c10_amended :
    (∀ heap cv s s2, execStep heap cv s = some s2 → s2.locals = s.locals) ∧
    (∀ heap cv fuel s s2, runLoop heap cv fuel s = some s2 →
      s2.locals = s.locals) ∧
    (∀ name, lookupName [] name = none) ∧
    (∀ heap cv (s : VMState) (g nh : Int) (name : List Nat),
      s.locals = [] → 0 ≤ g → cv.names[g.toNat]? = some nh →
      heap.AsStr0 nh = some name → name ≠ printBytes →
      dispatchOp heap cv LOAD_NAME (some g) s =
        some { s with stack := 0 :: s.stack, n := s.n + 1 }) := by
  refine ⟨execStep_preserves_locals, runLoop_preserves_locals, fun _ => rfl, ?_⟩
  intro heap cv s g nh name hloc hg hnh hname hne
  have hln : LoadName heap s.locals nh = some 0 := by
    rw [hloc]
    simp [LoadName, hname, lookupName, hne]
  simp only [dispatchOp, LOAD_NAME, LOAD_CONST]
  norm_num
  refine ⟨hg, ?_⟩
  rw [hnh]
  simp [hln]

/-- Claim C10, witness: a `LOAD_NAME` of the one-byte name `"x"` on a fresh
frame pushes the sentinel 0. -/
theorem c10_amended_witness :
    dispatchOp heapX cvC10 LOAD_NAME (some 0) initState =
      some { initState with stack := [0], n := 1 } := by
  have h := c10_amended.2.2.2 heapX cvC10 initState 0 0 [120]
      rfl (by decide) (by decide) (by decide) (by decide)
  simpa using h

end OVM2
